import Mathlib

/-!
# Verification of the electron-objproxy remote-object lifecycle

Shallow embedding of the two stateful components of the repository:

* the main-process object registry (`src/main/index.ts`): the instance table
  `objectMap`, the singleton-binding table `singletonMap`, the id counter
  `nextObjectId`, and the handlers `handleObjectCreation`, `handleGetSingleton`,
  `handleMethodCall`, `handleObjectRelease`, together with the
  `overrideDispatchEvent` event-forwarding wrapper;
* the renderer-process proxy manager (`src/renderer/proxy-manager.ts`): the
  WeakRef table `objectMap`, the strong `singletonProxyMap`, the proxy `get`
  trap of `createProxyFromResponse`, and the reclamation pair
  `releaseObjects` / `cleanupObjects`.

JavaScript `Record` objects are embedded as association lists with unique keys
(insertion replaces the previous entry, deletion filters the key out); JS class
instances are embedded by the data the registry observes about them: whether
the constructor throws on given arguments, whether the instance is an
`EventTarget`, and which member names are callable. Mutation of the module
globals becomes explicit state passing; a thrown JS error becomes an `Except`
error value paired with the state as it stood at the throw point.
-/

/-! ## Association-list primitives (embedding of JS `Record` objects) -/

/-- Lookup in an association list: `m[k]`, `undefined` becoming `none`. -/
def lookupA {κ α : Type} [DecidableEq κ] : List (κ × α) → κ → Option α
  | [], _ => none
  | (k, v) :: l, k' => if k = k' then some v else lookupA l k'

/-- Key removal: `delete m[k]`. -/
def eraseA {κ α : Type} [DecidableEq κ] (k : κ) (l : List (κ × α)) : List (κ × α) :=
  l.filter (fun p => p.1 ≠ k)

/-- Key assignment: `m[k] = v` (replaces any previous entry for `k`). -/
def insertA {κ α : Type} [DecidableEq κ] (k : κ) (v : α) (l : List (κ × α)) : List (κ × α) :=
  (k, v) :: eraseA k l

theorem eraseA_nil {κ α : Type} [DecidableEq κ] (k : κ) :
    eraseA k ([] : List (κ × α)) = [] := rfl

theorem eraseA_cons {κ α : Type} [DecidableEq κ] (k : κ) (p : κ × α) (l : List (κ × α)) :
    eraseA k (p :: l) = if p.1 = k then eraseA k l else p :: eraseA k l := by
  by_cases hpk : p.1 = k <;> simp [eraseA, List.filter_cons, hpk]

theorem lookupA_eraseA_self {κ α : Type} [DecidableEq κ] (k : κ) (l : List (κ × α)) :
    lookupA (eraseA k l) k = none := by
  induction l with
  | nil => rfl
  | cons p l ih =>
    rw [eraseA_cons]
    by_cases hpk : p.1 = k
    · simpa [hpk] using ih
    · cases p with
      | mk a b =>
        simp only at hpk
        simpa [lookupA, hpk] using ih

theorem lookupA_eraseA_ne {κ α : Type} [DecidableEq κ] (k k' : κ) (l : List (κ × α))
    (h : k ≠ k') : lookupA (eraseA k l) k' = lookupA l k' := by
  induction l with
  | nil => rfl
  | cons p l ih =>
    rw [eraseA_cons]
    cases p with
    | mk a b =>
      by_cases hak : a = k
      · subst hak
        rw [if_pos (show (a, b).1 = a from rfl), ih]
        simp [lookupA, if_neg h]
      · simp only [if_neg hak]
        by_cases hak' : a = k'
        · simp [lookupA, hak']
        · simp only [lookupA, if_neg hak']
          exact ih

theorem lookupA_insertA_self {κ α : Type} [DecidableEq κ] (k : κ) (v : α) (l : List (κ × α)) :
    lookupA (insertA k v l) k = some v := by
  simp [insertA, lookupA]

theorem lookupA_insertA_ne {κ α : Type} [DecidableEq κ] (k k' : κ) (v : α) (l : List (κ × α))
    (h : k ≠ k') : lookupA (insertA k v l) k' = lookupA l k' := by
  simp only [insertA, lookupA, if_neg h]
  exact lookupA_eraseA_ne k k' l h

/-- A key with a successful lookup comes from an entry of the list. -/
theorem lookupA_isSome_of_mem {κ α : Type} [DecidableEq κ] {l : List (κ × α)} {p : κ × α}
    (h : p ∈ l) : (lookupA l p.1).isSome := by
  induction l with
  | nil => cases h
  | cons q l ih =>
    rcases List.mem_cons.mp h with hq | hq
    · subst hq; simp [lookupA]
    · by_cases hqp : q.1 = p.1
      · simp [lookupA, hqp]
      · simp only [lookupA, if_neg hqp]
        exact ih hq

/-! ## Main-process object registry (`src/main/index.ts`)

A registered class is embedded by what the registry observes of it:
`ctorThrows args` says whether `new ClassConstructor(...args)` throws,
`isEventTarget` whether instances satisfy `instance instanceof EventTarget`,
and `methods` the member names `m` with `typeof instance[m] === 'function'`.
Constructor arguments are JSON-serializable values, embedded abstractly
as natural numbers. -/

/-- Behaviour of one constructor from the registered class map. -/
structure ClassDef where
  ctorThrows : List Nat → Bool
  isEventTarget : Bool
  methods : List String

/-- `registeredClassMap`: class name to constructor. -/
def ClassMap : Type := List (String × ClassDef)

/-- What the registry records about a created instance: the data of its
class plus the metadata attached under `OBJECT_METADATA_SYMBOL`
(`objectId` is the table key; `sender` is the requesting WebContents,
embedded as an endpoint number). -/
structure ObjEntry where
  className : String
  isEventTarget : Bool
  methods : List String
  sender : Nat
deriving DecidableEq

/-- The registry's module-level mutable state: `objectMap`, `singletonMap`
and `nextObjectId` of `src/main/index.ts`. -/
structure RegState where
  objectMap : List (Nat × ObjEntry)
  singletonMap : List (String × Nat)
  nextObjectId : Nat
deriving DecidableEq

/-- State at module load: empty tables, `nextObjectId = 1`. -/
def initRegState : RegState := ⟨[], [], 1⟩

/-- The error taxonomy of the registry handlers (each `throw new Error(...)`
site of `src/main/index.ts`, keyed by kind with the data interpolated into
the message). -/
inductive ObjError
  | unknownClass (className : String)
  | constructionFailed (className : String)
  | objectNotFound (objectId : Nat)
  | methodNotFound (method : String) (objectId : Nat)
deriving DecidableEq

/-- Reply shape of `new` / `getSingleton` requests. -/
structure CreateResponse where
  objectId : Nat
  isEventTarget : Bool
deriving DecidableEq

/-- Record of a performed method invocation (`methodFn.apply(instance, args)`). -/
structure MethodInvocation where
  objectId : Nat
  method : String
  args : List Nat
deriving DecidableEq

/-- `handleObjectCreation(sender, className, args)`.

Statement order of the source: class lookup (throw `UnknownClass` if
absent), `new ClassConstructor(...args)` (a constructor throw escapes
here, before any global is touched), `nextObjectId++`, metadata
attachment, `objectMap[objectId] = instance`, the `instanceof EventTarget`
check. A throw returns the state as of the throw point. -/
def handleObjectCreation (cm : ClassMap) (sender : Nat) (className : String)
    (args : List Nat) (s : RegState) : RegState × Except ObjError CreateResponse :=
  match lookupA cm className with
  | none => (s, .error (.unknownClass className))
  | some cd =>
    if cd.ctorThrows args then
      (s, .error (.constructionFailed className))
    else
      let objectId := s.nextObjectId
      let entry : ObjEntry := ⟨className, cd.isEventTarget, cd.methods, sender⟩
      ({ s with
          objectMap := insertA objectId entry s.objectMap
          nextObjectId := s.nextObjectId + 1 },
        .ok ⟨objectId, cd.isEventTarget⟩)

/-- `handleGetSingleton(sender, className, args)`.

Mirrors the source: if `singletonMap[className]` holds an id whose
instance is still in `objectMap`, answer with that id (arguments unused);
otherwise create a new instance and then write
`singletonMap[className] = result.objectId` (skipped when creation threw). -/
def handleGetSingleton (cm : ClassMap) (sender : Nat) (className : String)
    (args : List Nat) (s : RegState) : RegState × Except ObjError CreateResponse :=
  match lookupA s.singletonMap className with
  | some existingObjectId =>
    match lookupA s.objectMap existingObjectId with
    | some inst => (s, .ok ⟨existingObjectId, inst.isEventTarget⟩)
    | none =>
      match handleObjectCreation cm sender className args s with
      | (s', .ok r) =>
        ({ s' with singletonMap := insertA className r.objectId s'.singletonMap }, .ok r)
      | (s', .error e) => (s', .error e)
  | none =>
    match handleObjectCreation cm sender className args s with
    | (s', .ok r) =>
      ({ s' with singletonMap := insertA className r.objectId s'.singletonMap }, .ok r)
    | (s', .error e) => (s', .error e)

/-- `handleMethodCall(objectId, method, args)`: `ObjectNotFound` when the id
is unbound, `MethodNotFound` when the member is not a function, otherwise
the invocation `methodFn.apply(instance, args)` happens. The handler never
writes the registry tables. -/
def handleMethodCall (objectId : Nat) (method : String) (args : List Nat)
    (s : RegState) : RegState × Except ObjError MethodInvocation :=
  match lookupA s.objectMap objectId with
  | none => (s, .error (.objectNotFound objectId))
  | some inst =>
    if method ∈ inst.methods then
      (s, .ok ⟨objectId, method, args⟩)
    else
      (s, .error (.methodNotFound method objectId))

/-- `handleObjectRelease(objectIds)`: `delete objectMap[objectId]` for each
listed id, in order; a total function, no failure path. -/
def handleObjectRelease (objectIds : List Nat) (s : RegState) : RegState :=
  { s with objectMap := objectIds.foldl (fun m objectId => eraseA objectId m) s.objectMap }

/-! ## Claim C2: construction failure leaves the registry untouched -/

/-- C2: for a registered class whose constructor throws on the given
arguments, `handleObjectCreation` fails with `ConstructionFailed` and
returns the state unchanged (so the id counter is not advanced, no
instance-table entry is added), and `handleGetSingleton` with no existing
binding does the same (so no singleton binding is recorded either). -/
theorem C2_construction_failure_no_state_change
    (cm : ClassMap) (sender : Nat) (className : String) (args : List Nat)
    (cd : ClassDef) (s : RegState)
    (hcd : lookupA cm className = some cd)
    (hthrow : cd.ctorThrows args = true) :
    handleObjectCreation cm sender className args s
        = (s, .error (.constructionFailed className)) ∧
    (lookupA s.singletonMap className = none →
      handleGetSingleton cm sender className args s
        = (s, .error (.constructionFailed className))) := by
  have hcreate : handleObjectCreation cm sender className args s
      = (s, .error (.constructionFailed className)) := by
    unfold handleObjectCreation
    rw [hcd]
    simp [hthrow]
  refine ⟨hcreate, fun hnb => ?_⟩
  unfold handleGetSingleton
  rw [hnb, hcreate]

/-- Witness for C2 at a concrete class map whose constructor always throws. -/
theorem C2_witness :
    let cm : ClassMap := [("Boom", ⟨fun _ => true, false, []⟩)]
    handleObjectCreation cm 0 "Boom" [7] initRegState
        = (initRegState, .error (.constructionFailed "Boom")) ∧
    (lookupA initRegState.singletonMap "Boom" = none →
      handleGetSingleton cm 0 "Boom" [7] initRegState
        = (initRegState, .error (.constructionFailed "Boom"))) := by
  exact C2_construction_failure_no_state_change
    [("Boom", ⟨fun _ => true, false, []⟩)] 0 "Boom" [7]
    ⟨fun _ => true, false, []⟩ initRegState rfl rfl

/-! ## Claim C4: method-call failure cases -/

/-- C4: `handleMethodCall` fails with `ObjectNotFound` when the id is not
bound in `objectMap`, and with `MethodNotFound` when the bound instance
has no callable member of that name; in both cases the returned state is
exactly the input state and no invocation record is produced. -/
theorem C4_method_call_failures
    (s : RegState) (objectId : Nat) (method : String) (args : List Nat) :
    (lookupA s.objectMap objectId = none →
      handleMethodCall objectId method args s
        = (s, .error (.objectNotFound objectId))) ∧
    (∀ inst : ObjEntry, lookupA s.objectMap objectId = some inst →
      method ∉ inst.methods →
      handleMethodCall objectId method args s
        = (s, .error (.methodNotFound method objectId))) := by
  constructor
  · intro hnone
    unfold handleMethodCall
    rw [hnone]
  · intro inst hsome hnm
    unfold handleMethodCall
    rw [hsome]
    simp [hnm]

/-- Witness for C4: an empty registry has no object 5; a registry holding an
object whose class exposes only `increment` rejects `decrement`. -/
theorem C4_witness :
    (lookupA initRegState.objectMap 5 = none →
      handleMethodCall 5 "poke" [] initRegState
        = (initRegState, .error (.objectNotFound 5))) ∧
    (∀ inst : ObjEntry,
      lookupA initRegState.objectMap 5 = some inst →
      "poke" ∉ inst.methods →
      handleMethodCall 5 "poke" [] initRegState
        = (initRegState, .error (.methodNotFound "poke" 5))) :=
  C4_method_call_failures initRegState 5 "poke" []

/-! ## Claim C5: release is idempotent and unconditional -/

/-- The fold of `delete objectMap[id]` over a list of ids is a filter
keeping the keys outside the list. -/
theorem release_foldl_eq_filter {α : Type} (objectIds : List Nat) (m : List (Nat × α)) :
    objectIds.foldl (fun acc objectId => eraseA objectId acc) m
      = m.filter (fun p => decide (p.1 ∉ objectIds)) := by
  induction objectIds generalizing m with
  | nil => simp
  | cons i rest ih =>
    simp only [List.foldl_cons]
    rw [ih]
    unfold eraseA
    rw [List.filter_filter]
    apply List.filter_congr
    intro p _
    by_cases h1 : p.1 = i <;> by_cases h2 : p.1 ∈ rest <;>
      simp [h1, h2, List.mem_cons]

/-- Looking up a key that the filter predicate rejects gives `none`. -/
theorem lookupA_filter_key_none {κ α : Type} [DecidableEq κ]
    (l : List (κ × α)) (q : κ → Bool) (k : κ) (hk : q k = false) :
    lookupA (l.filter (fun p => q p.1)) k = none := by
  induction l with
  | nil => rfl
  | cons p l ih =>
    rw [List.filter_cons]
    by_cases hq : q p.1 = true
    · rw [if_pos hq]
      have hpk : p.1 ≠ k := fun h => by rw [h, hk] at hq; cases hq
      simpa [lookupA, hpk] using ih
    · rw [if_neg hq]
      exact ih

/-- `handleObjectRelease` in closed form: keep the entries whose key is
not listed. -/
theorem handleObjectRelease_eq (objectIds : List Nat) (s : RegState) :
    handleObjectRelease objectIds s
      = { s with objectMap := s.objectMap.filter (fun p => decide (p.1 ∉ objectIds)) } := by
  unfold handleObjectRelease
  rw [release_foldl_eq_filter]

/-- C5: `handleObjectRelease` removes every listed id from the instance
table (with no special case for singleton-bound ids: the singleton table
and id counter are untouched, so a bound name keeps pointing at the
released id), applying it twice with the same ids gives the same state as
once, and releasing ids that are all unbound is a complete no-op (no error
is possible: the handler is a total function). -/
theorem C5_release_idempotent_unconditional
    (objectIds : List Nat) (s : RegState) :
    (∀ objectId ∈ objectIds,
      lookupA (handleObjectRelease objectIds s).objectMap objectId = none) ∧
    (handleObjectRelease objectIds s).singletonMap = s.singletonMap ∧
    (handleObjectRelease objectIds s).nextObjectId = s.nextObjectId ∧
    handleObjectRelease objectIds (handleObjectRelease objectIds s)
      = handleObjectRelease objectIds s ∧
    ((∀ objectId ∈ objectIds, lookupA s.objectMap objectId = none) →
      handleObjectRelease objectIds s = s) := by
  refine ⟨?_, rfl, rfl, ?_, ?_⟩
  · intro objectId hmem
    rw [handleObjectRelease_eq]
    exact lookupA_filter_key_none s.objectMap (fun k => decide (k ∉ objectIds)) objectId
      (by simp [hmem])
  · have hff : (s.objectMap.filter (fun p => decide (p.1 ∉ objectIds))).filter
        (fun p => decide (p.1 ∉ objectIds))
        = s.objectMap.filter (fun p => decide (p.1 ∉ objectIds)) := by
      rw [List.filter_filter]
      apply List.filter_congr
      intro p _
      by_cases h : p.1 ∈ objectIds <;> simp [h]
    rw [handleObjectRelease_eq, handleObjectRelease_eq]
    exact congrArg (fun m => { s with objectMap := m }) hff
  · intro hall
    rw [handleObjectRelease_eq]
    have hkeep : ∀ p ∈ s.objectMap, decide (p.1 ∉ objectIds) = true := by
      intro p hp
      by_cases hmem : p.1 ∈ objectIds
      · have hnone := hall p.1 hmem
        have hsome := lookupA_isSome_of_mem hp
        rw [hnone] at hsome
        cases hsome
      · simp [hmem]
    exact congrArg (fun m => { s with objectMap := m }) (List.filter_eq_self.mpr hkeep)

/-- Witness for C5 at a one-entry registry and a duplicate release list. -/
theorem C5_witness :
    let s : RegState := ⟨[(5, ⟨"Counter", false, ["increment"], 0⟩)], [], 6⟩
    (∀ objectId ∈ [5, 9],
      lookupA (handleObjectRelease [5, 9] s).objectMap objectId = none) ∧
    (handleObjectRelease [5, 9] s).singletonMap = s.singletonMap ∧
    (handleObjectRelease [5, 9] s).nextObjectId = s.nextObjectId ∧
    handleObjectRelease [5, 9] (handleObjectRelease [5, 9] s)
      = handleObjectRelease [5, 9] s ∧
    ((∀ objectId ∈ [5, 9], lookupA s.objectMap objectId = none) →
      handleObjectRelease [5, 9] s = s) :=
  C5_release_idempotent_unconditional [5, 9] ⟨[(5, ⟨"Counter", false, ["increment"], 0⟩)], [], 6⟩

/-! ## Claim C1: singleton-binding immutability

The claim as frozen is refuted by the code: after the bound id is
released, `handleGetSingleton` falls through the `if (instance)` guard,
creates a fresh instance and overwrites the binding with the new id. -/

/-- A one-class map whose constructor never throws, for concrete runs. -/
def cmX : ClassMap := [("X", ⟨fun _ => false, false, []⟩)]

/-- Shared lemma: when the singleton table binds the class name to an id
that is still present in the instance table, `handleGetSingleton` answers
with that id, its recorded `isEventTarget`, and an unchanged state. -/
theorem getSingleton_of_bound_live
    (cm : ClassMap) (sender : Nat) (className : String) (args : List Nat)
    (s : RegState) (boundId : Nat) (inst : ObjEntry)
    (hb : lookupA s.singletonMap className = some boundId)
    (hlive : lookupA s.objectMap boundId = some inst) :
    handleGetSingleton cm sender className args s
      = (s, .ok ⟨boundId, inst.isEventTarget⟩) := by
  simp [handleGetSingleton, hb, hlive]

/-- Shared lemma: when no binding exists for the class name and the
constructor does not throw, `handleGetSingleton` creates a fresh instance
under the current `nextObjectId` and commits the binding. -/
theorem getSingleton_of_unbound
    (cm : ClassMap) (cd : ClassDef) (sender : Nat) (className : String) (args : List Nat)
    (s : RegState)
    (hcd : lookupA cm className = some cd)
    (hok : cd.ctorThrows args = false)
    (hnb : lookupA s.singletonMap className = none) :
    handleGetSingleton cm sender className args s
      = ({ s with
            objectMap := insertA s.nextObjectId
              ⟨className, cd.isEventTarget, cd.methods, sender⟩ s.objectMap
            singletonMap := insertA className s.nextObjectId s.singletonMap
            nextObjectId := s.nextObjectId + 1 },
          .ok ⟨s.nextObjectId, cd.isEventTarget⟩) := by
  have hcreate : handleObjectCreation cm sender className args s
      = ({ s with
            objectMap := insertA s.nextObjectId
              ⟨className, cd.isEventTarget, cd.methods, sender⟩ s.objectMap
            nextObjectId := s.nextObjectId + 1 },
          .ok ⟨s.nextObjectId, cd.isEventTarget⟩) := by
    unfold handleObjectCreation
    rw [hcd]
    simp [hok]
  simp [handleGetSingleton, hnb, hcreate]

/-- C1 counterexample: `GetSingleton("X")` binds id 1; after
`Release([1])` names the bound id, a later `GetSingleton("X", [])` does
not return 1 again — it constructs a new instance and answers id 2. -/
theorem C1_counterexample :
    (handleGetSingleton cmX 0 "X" [] initRegState).2 = .ok ⟨1, false⟩ ∧
    (handleGetSingleton cmX 0 "X" []
        (handleObjectRelease [1] (handleGetSingleton cmX 0 "X" [] initRegState).1)).2
      = .ok ⟨2, false⟩ := by
  constructor <;> rfl

/-- C1 amended: while the bound id is still present in the instance table
(that is, as long as no `Release` naming it has intervened), the binding
is immutable: `handleGetSingleton` for that class name returns the bound
id with the state completely unchanged — the constructor arguments are
ignored and no new instance is constructed, whatever they are and
whatever other operations have produced the current state. -/
theorem C1_singleton_binding_stable_while_live
    (cm : ClassMap) (sender : Nat) (className : String) (args : List Nat)
    (s : RegState) (boundId : Nat) (inst : ObjEntry)
    (hb : lookupA s.singletonMap className = some boundId)
    (hlive : lookupA s.objectMap boundId = some inst) :
    handleGetSingleton cm sender className args s
      = (s, .ok ⟨boundId, inst.isEventTarget⟩) :=
  getSingleton_of_bound_live cm sender className args s boundId inst hb hlive

/-- Witness for the amended C1: a bound live singleton is answered as-is,
with arbitrary fresh constructor arguments. -/
theorem C1_witness :
    let s : RegState := ⟨[(1, ⟨"X", false, [], 0⟩)], [("X", 1)], 2⟩
    handleGetSingleton cmX 0 "X" [41, 42] s = (s, .ok ⟨1, false⟩) :=
  C1_singleton_binding_stable_while_live cmX 0 "X" [41, 42]
    ⟨[(1, ⟨"X", false, [], 0⟩)], [("X", 1)], 2⟩ 1 ⟨"X", false, [], 0⟩ rfl rfl

/-! ## Claim C9: no duplicate singleton creation across two requests

`handleGetSingleton` contains no `await`: from the singleton lookup to the
`singletonMap[className] =` commit it runs synchronously inside one turn
of the main process's event loop, so two concurrent renderer requests are
processed as two consecutive handler runs. The theorem settles the claim
in that serialized model: starting from any state with no binding for the
class, running the handler twice (any senders, any argument lists)
constructs exactly one instance — the id counter advances by exactly one
— and both requests observe the same id. -/
theorem C9_concurrent_get_singleton_single_creation
    (cm : ClassMap) (cd : ClassDef) (s : RegState) (className : String)
    (sender1 sender2 : Nat) (args1 args2 : List Nat)
    (hcd : lookupA cm className = some cd)
    (hok : cd.ctorThrows args1 = false)
    (hnb : lookupA s.singletonMap className = none) :
    (handleGetSingleton cm sender1 className args1 s).2
        = .ok ⟨s.nextObjectId, cd.isEventTarget⟩ ∧
    (handleGetSingleton cm sender2 className args2
        (handleGetSingleton cm sender1 className args1 s).1).2
        = .ok ⟨s.nextObjectId, cd.isEventTarget⟩ ∧
    (handleGetSingleton cm sender2 className args2
        (handleGetSingleton cm sender1 className args1 s).1).1.nextObjectId
        = s.nextObjectId + 1 := by
  have h1 := getSingleton_of_unbound cm cd sender1 className args1 s hcd hok hnb
  have h2 := getSingleton_of_bound_live cm sender2 className args2
    (handleGetSingleton cm sender1 className args1 s).1 s.nextObjectId
    ⟨className, cd.isEventTarget, cd.methods, sender1⟩
    (by rw [h1]; exact lookupA_insertA_self className s.nextObjectId s.singletonMap)
    (by rw [h1]; exact lookupA_insertA_self s.nextObjectId _ s.objectMap)
  refine ⟨by rw [h1], by rw [h2], ?_⟩
  rw [h2, h1]

/-- Witness for C9: two back-to-back `getSingleton("X")` requests from two
different renderers, on the fresh registry. -/
theorem C9_witness :
    (handleGetSingleton cmX 7 "X" [] initRegState).2 = .ok ⟨1, false⟩ ∧
    (handleGetSingleton cmX 8 "X" [3]
        (handleGetSingleton cmX 7 "X" [] initRegState).1).2 = .ok ⟨1, false⟩ ∧
    (handleGetSingleton cmX 8 "X" [3]
        (handleGetSingleton cmX 7 "X" [] initRegState).1).1.nextObjectId
        = initRegState.nextObjectId + 1 :=
  C9_concurrent_get_singleton_single_creation cmX ⟨fun _ => false, false, []⟩
    initRegState "X" 7 8 [] [3] rfl rfl rfl

/-! ## Claim C3: issued ids are strictly increasing and never reused

A registry run is a sequence of inbound requests; `stepState` applies one
request's handler to the state (discarding the reply), `runOps` folds a
whole sequence. The ids issued during a run are read off the only place
the source ever issues them, the `nextObjectId++` of
`handleObjectCreation`: a step issues exactly the counter values it
consumed. -/

/-- One inbound request, as dispatched by `handleInvokeRequest` /
`handleSendRequest`. -/
inductive Op
  | create (sender : Nat) (className : String) (args : List Nat)
  | getSingleton (sender : Nat) (className : String) (args : List Nat)
  | callMethod (objectId : Nat) (method : String) (args : List Nat)
  | release (objectIds : List Nat)

/-- State after serving one request. -/
def stepState (cm : ClassMap) (s : RegState) : Op → RegState
  | .create sender className args => (handleObjectCreation cm sender className args s).1
  | .getSingleton sender className args => (handleGetSingleton cm sender className args s).1
  | .callMethod objectId method args => (handleMethodCall objectId method args s).1
  | .release objectIds => handleObjectRelease objectIds s

/-- State after serving a sequence of requests. -/
def runOps (cm : ClassMap) : RegState → List Op → RegState
  | s, [] => s
  | s, op :: ops => runOps cm (stepState cm s op) ops

/-- Ids issued while serving one request: the counter values consumed. -/
def issuedInStep (cm : ClassMap) (s : RegState) (op : Op) : List Nat :=
  List.range' s.nextObjectId ((stepState cm s op).nextObjectId - s.nextObjectId)

/-- Ids issued over a whole run, in order. -/
def issuedIds (cm : ClassMap) : RegState → List Op → List Nat
  | _, [] => []
  | s, op :: ops => issuedInStep cm s op ++ issuedIds cm (stepState cm s op) ops

/-- `handleMethodCall` never writes the registry state. -/
theorem handleMethodCall_fst (objectId : Nat) (method : String) (args : List Nat)
    (s : RegState) : (handleMethodCall objectId method args s).1 = s := by
  unfold handleMethodCall
  cases h : lookupA s.objectMap objectId with
  | none => rfl
  | some inst => by_cases hm : method ∈ inst.methods <;> simp [hm]

/-- A successful creation answers with the pre-state counter as the id and
advances the counter by exactly one. -/
theorem handleObjectCreation_ok (cm : ClassMap) (sender : Nat) (className : String)
    (args : List Nat) (s s' : RegState) (r : CreateResponse)
    (h : handleObjectCreation cm sender className args s = (s', .ok r)) :
    r.objectId = s.nextObjectId ∧ s'.nextObjectId = s.nextObjectId + 1 := by
  cases hcm : lookupA cm className with
  | none => simp [handleObjectCreation, hcm] at h
  | some cd =>
    by_cases hc : cd.ctorThrows args
    · simp [handleObjectCreation, hcm, hc] at h
    · simp only [handleObjectCreation, hcm, hc, Bool.false_eq_true, if_false,
        Prod.mk.injEq, Except.ok.injEq] at h
      obtain ⟨hs', hr⟩ := h
      constructor
      · rw [← hr]
      · rw [← hs']

/-- The counter never decreases, and advances by at most one per request. -/
theorem stepState_nextObjectId (cm : ClassMap) (s : RegState) (op : Op) :
    (stepState cm s op).nextObjectId = s.nextObjectId ∨
    (stepState cm s op).nextObjectId = s.nextObjectId + 1 := by
  have hcreate : ∀ sender className args,
      (handleObjectCreation cm sender className args s).1.nextObjectId = s.nextObjectId ∨
      (handleObjectCreation cm sender className args s).1.nextObjectId = s.nextObjectId + 1 := by
    intro sender className args
    cases hcm : lookupA cm className with
    | none => left; simp [handleObjectCreation, hcm]
    | some cd =>
      by_cases hc : cd.ctorThrows args
      · left; simp [handleObjectCreation, hcm, hc]
      · right; simp [handleObjectCreation, hcm, hc]
  cases op with
  | create sender className args =>
    simp only [stepState]
    exact hcreate sender className args
  | getSingleton sender className args =>
    simp only [stepState]
    cases hb : lookupA s.singletonMap className with
    | some existingObjectId =>
      cases hl : lookupA s.objectMap existingObjectId with
      | some inst =>
        left
        simp [handleGetSingleton, hb, hl]
      | none =>
        cases hc : handleObjectCreation cm sender className args s with
        | mk s' res =>
          have hnext := hcreate sender className args
          rw [hc] at hnext
          cases res with
          | ok r =>
            simp only [handleGetSingleton, hb, hl, hc]
            simpa using hnext
          | error e =>
            simp only [handleGetSingleton, hb, hl, hc]
            simpa using hnext
    | none =>
      cases hc : handleObjectCreation cm sender className args s with
      | mk s' res =>
        have hnext := hcreate sender className args
        rw [hc] at hnext
        cases res with
        | ok r =>
          simp only [handleGetSingleton, hb, hc]
          simpa using hnext
        | error e =>
          simp only [handleGetSingleton, hb, hc]
          simpa using hnext
  | callMethod objectId method args =>
    left
    simp only [stepState]
    rw [handleMethodCall_fst]
  | release objectIds =>
    left
    simp only [stepState]
    rw [handleObjectRelease_eq]

/-- Counter monotonicity over one step. -/
theorem stepState_nextObjectId_le (cm : ClassMap) (s : RegState) (op : Op) :
    s.nextObjectId ≤ (stepState cm s op).nextObjectId := by
  rcases stepState_nextObjectId cm s op with h | h <;> omega

/-- Counter monotonicity over a run. -/
theorem runOps_nextObjectId_le (cm : ClassMap) (ops : List Op) (s : RegState) :
    s.nextObjectId ≤ (runOps cm s ops).nextObjectId := by
  induction ops generalizing s with
  | nil => exact Nat.le_refl _
  | cons op ops ih =>
    exact Nat.le_trans (stepState_nextObjectId_le cm s op) (ih (stepState cm s op))

/-- The issued ids of a run form the contiguous counter window from the
initial to the final `nextObjectId`. -/
theorem issuedIds_eq_range' (cm : ClassMap) (ops : List Op) (s : RegState) :
    issuedIds cm s ops
      = List.range' s.nextObjectId ((runOps cm s ops).nextObjectId - s.nextObjectId) := by
  induction ops generalizing s with
  | nil => simp [issuedIds, runOps]
  | cons op ops ih =>
    have hmid := stepState_nextObjectId_le cm s op
    have hend := runOps_nextObjectId_le cm ops (stepState cm s op)
    simp only [issuedIds, issuedInStep]
    rw [ih (stepState cm s op)]
    have harith : s.nextObjectId + ((stepState cm s op).nextObjectId - s.nextObjectId)
        = (stepState cm s op).nextObjectId := by omega
    have happ := List.range'_append_1 s.nextObjectId
      ((stepState cm s op).nextObjectId - s.nextObjectId)
      ((runOps cm (stepState cm s op) ops).nextObjectId - (stepState cm s op).nextObjectId)
    rw [harith] at happ
    rw [happ]
    have hlen : (runOps cm (stepState cm s op) ops).nextObjectId
          - (stepState cm s op).nextObjectId
        + ((stepState cm s op).nextObjectId - s.nextObjectId)
        = (runOps cm s (op :: ops)).nextObjectId - s.nextObjectId := by
      show _ = (runOps cm (stepState cm s op) ops).nextObjectId - s.nextObjectId
      omega
    rw [hlen]

/-- A singleton request that moved the counter was a creating one: it
answers with the pre-state counter value as the id. -/
theorem handleGetSingleton_ok_created (cm : ClassMap) (sender : Nat) (className : String)
    (args : List Nat) (s s' : RegState) (r : CreateResponse)
    (h : handleGetSingleton cm sender className args s = (s', .ok r))
    (hch : s'.nextObjectId ≠ s.nextObjectId) :
    r.objectId = s.nextObjectId := by
  cases hb : lookupA s.singletonMap className with
  | some existingObjectId =>
    cases hl : lookupA s.objectMap existingObjectId with
    | some inst =>
      simp only [handleGetSingleton, hb, hl, Prod.mk.injEq] at h
      exact absurd (congrArg RegState.nextObjectId h.1.symm) hch
    | none =>
      cases hc : handleObjectCreation cm sender className args s with
      | mk s'' res =>
        cases res with
        | ok r' =>
          simp only [handleGetSingleton, hb, hl, hc, Prod.mk.injEq, Except.ok.injEq] at h
          rw [← h.2]
          exact (handleObjectCreation_ok cm sender className args s s'' r' hc).1
        | error e =>
          simp only [handleGetSingleton, hb, hl, hc, Prod.mk.injEq] at h
          cases h.2
  | none =>
    cases hc : handleObjectCreation cm sender className args s with
    | mk s'' res =>
      cases res with
      | ok r' =>
        simp only [handleGetSingleton, hb, hc, Prod.mk.injEq, Except.ok.injEq] at h
        rw [← h.2]
        exact (handleObjectCreation_ok cm sender className args s s'' r' hc).1
      | error e =>
        simp only [handleGetSingleton, hb, hc, Prod.mk.injEq] at h
        cases h.2

/-- C3: over any run from the fresh registry, the issued ids never repeat
(so an id, once released, is never issued again and names at most one
instance ever); and any further successful `Create` — or `GetSingleton`
that actually created, i.e. moved the counter — answers an id strictly
greater than every id issued before it. -/
theorem C3_ids_monotone_never_reused
    (cm : ClassMap) (ops : List Op) (sender : Nat) (className : String) (args : List Nat) :
    (issuedIds cm initRegState ops).Nodup ∧
    (∀ s' r, handleObjectCreation cm sender className args (runOps cm initRegState ops)
        = (s', .ok r) →
      (∀ i ∈ issuedIds cm initRegState ops, i < r.objectId) ∧
      r.objectId ∉ issuedIds cm initRegState ops) ∧
    (∀ s' r, handleGetSingleton cm sender className args (runOps cm initRegState ops)
        = (s', .ok r) →
      s'.nextObjectId ≠ (runOps cm initRegState ops).nextObjectId →
      (∀ i ∈ issuedIds cm initRegState ops, i < r.objectId) ∧
      r.objectId ∉ issuedIds cm initRegState ops) := by
  have hrange := issuedIds_eq_range' cm ops initRegState
  have hmono := runOps_nextObjectId_le cm ops initRegState
  have hbound : ∀ i ∈ issuedIds cm initRegState ops,
      i < (runOps cm initRegState ops).nextObjectId := by
    intro i hi
    rw [hrange] at hi
    have := (List.mem_range'_1.mp hi).2
    omega
  refine ⟨?_, ?_, ?_⟩
  · rw [hrange]
    exact List.nodup_range' _ _ 1 Nat.one_pos
  · intro s' r h
    have hid := (handleObjectCreation_ok cm sender className args _ s' r h).1
    constructor
    · intro i hi
      rw [hid]
      exact hbound i hi
    · intro hmem
      have := hbound r.objectId hmem
      omega
  · intro s' r h hch
    have hid := handleGetSingleton_ok_created cm sender className args _ s' r h hch
    constructor
    · intro i hi
      rw [hid]
      exact hbound i hi
    · intro hmem
      have := hbound r.objectId hmem
      omega

/-- Witness for C3: a run that creates id 1, releases it, then creates
again; the next create answers id 3, above everything issued. -/
theorem C3_witness :
    let ops : List Op := [.create 0 "X" [], .release [1], .create 0 "X" []]
    (issuedIds cmX initRegState ops).Nodup ∧
    (∀ s' r, handleObjectCreation cmX 0 "X" [] (runOps cmX initRegState ops)
        = (s', .ok r) →
      (∀ i ∈ issuedIds cmX initRegState ops, i < r.objectId) ∧
      r.objectId ∉ issuedIds cmX initRegState ops) ∧
    (∀ s' r, handleGetSingleton cmX 0 "X" [] (runOps cmX initRegState ops)
        = (s', .ok r) →
      s'.nextObjectId ≠ (runOps cmX initRegState ops).nextObjectId →
      (∀ i ∈ issuedIds cmX initRegState ops, i < r.objectId) ∧
      r.objectId ∉ issuedIds cmX initRegState ops) :=
  C3_ids_monotone_never_reused cmX [.create 0 "X" [], .release [1], .create 0 "X" []] 0 "X" []

/-! ## Claim C6: event forwarding (`overrideDispatchEvent`)

The wrapper installed on an event-capable instance runs, per raised
event: the original `dispatchEvent` (the synchronous local listener
dispatch), then — inside a `try`/`catch` — the `sender.send` of one
`{type:'event', objectId, eventType, detail}` message, guarded by
`!sender.isDestroyed()`; a `send` throw is caught and logged. The
original result is returned regardless. The embedding replays the
wrapper's statement order as an ordered effect list; `origResult` stands
for the value the original `dispatchEvent` returns, `senderDestroyed` and
`sendThrows` for the environment's behaviour at the two fallible points. -/

/-- The forwarded wire message `{type:'event', objectId, eventType, detail}`. -/
structure EventMessage where
  objectId : Nat
  eventType : String
  detail : Nat
deriving DecidableEq

/-- Observable effects of one run of the wrapped `dispatchEvent`, in
execution order. -/
inductive DispatchEffect
  | localDispatch (eventType : String) (detail : Nat)
  | forwardSent (m : EventMessage)
  | forwardFailedLogged
deriving DecidableEq

/-- A raised DOM event, by its type and `detail` payload. -/
structure JsEvent where
  eventType : String
  detail : Nat
deriving DecidableEq

/-- The wrapped `dispatchEvent` of `overrideDispatchEvent`: local dispatch
first, then the guarded, caught, best-effort forward; returns the
original result. -/
def overriddenDispatchEvent (origResult : JsEvent → Bool) (objectId : Nat)
    (senderDestroyed : Bool) (sendThrows : Bool) (e : JsEvent) :
    Bool × List DispatchEffect :=
  let result := origResult e
  let localEffects := [DispatchEffect.localDispatch e.eventType e.detail]
  let forwardEffects :=
    if senderDestroyed then []
    else if sendThrows then [DispatchEffect.forwardFailedLogged]
    else [DispatchEffect.forwardSent ⟨objectId, e.eventType, e.detail⟩]
  (result, localEffects ++ forwardEffects)

/-- Raising a sequence of events through the wrapper, concatenating the
effects in order. -/
def dispatchEvents (origResult : JsEvent → Bool) (objectId : Nat)
    (senderDestroyed : Bool) (sendThrows : Bool) : List JsEvent → List DispatchEffect
  | [] => []
  | e :: es =>
    (overriddenDispatchEvent origResult objectId senderDestroyed sendThrows e).2
      ++ dispatchEvents origResult objectId senderDestroyed sendThrows es

/-- C6: for an event-capable instance, each locally raised event yields an
effect trace whose head is the completed local dispatch, followed — when
the owning endpoint is alive and the send does not fail — by exactly one
forwarded `{event, id, eventType, detail}` message carrying the raised
event's type and detail; when the send fails the failure is only logged;
and in every case the wrapper's return value is exactly the local
dispatch's result. Over a sequence of raised events the forwarded
messages appear in raise order. -/
theorem C6_event_forwarding
    (origResult : JsEvent → Bool) (objectId : Nat)
    (senderDestroyed sendThrows : Bool) (e : JsEvent) (es : List JsEvent) :
    (overriddenDispatchEvent origResult objectId senderDestroyed sendThrows e).1
        = origResult e ∧
    (senderDestroyed = false → sendThrows = false →
      (overriddenDispatchEvent origResult objectId senderDestroyed sendThrows e).2
        = [.localDispatch e.eventType e.detail,
           .forwardSent ⟨objectId, e.eventType, e.detail⟩]) ∧
    (senderDestroyed = false → sendThrows = true →
      (overriddenDispatchEvent origResult objectId senderDestroyed sendThrows e).2
        = [.localDispatch e.eventType e.detail, .forwardFailedLogged]) ∧
    (senderDestroyed = false → sendThrows = false →
      (dispatchEvents origResult objectId senderDestroyed sendThrows es).filterMap
          (fun fx => match fx with
            | .forwardSent m => some m
            | _ => none)
        = es.map (fun ev => ⟨objectId, ev.eventType, ev.detail⟩)) := by
  refine ⟨rfl, ?_, ?_, ?_⟩
  · intro hd ht
    subst hd; subst ht
    rfl
  · intro hd ht
    subst hd; subst ht
    rfl
  · intro hd ht
    subst hd; subst ht
    induction es with
    | nil => rfl
    | cons ev es ih =>
      simp only [dispatchEvents, List.filterMap_append, List.map_cons, ih]
      rfl

/-- Witness for C6: raising `tick` with detail 1, then `tock` with
detail 2, on a live endpoint with a working send. -/
theorem C6_witness :
    (overriddenDispatchEvent (fun _ => true) 3 false false ⟨"tick", 1⟩).1
        = (fun _ => true) (⟨"tick", 1⟩ : JsEvent) ∧
    (false = false → false = false →
      (overriddenDispatchEvent (fun _ => true) 3 false false ⟨"tick", 1⟩).2
        = [.localDispatch "tick" 1, .forwardSent ⟨3, "tick", 1⟩]) ∧
    (false = false → false = true →
      (overriddenDispatchEvent (fun _ => true) 3 false false ⟨"tick", 1⟩).2
        = [.localDispatch "tick" 1, .forwardFailedLogged]) ∧
    (false = false → false = false →
      (dispatchEvents (fun _ => true) 3 false false [⟨"tick", 1⟩, ⟨"tock", 2⟩]).filterMap
          (fun fx => match fx with
            | .forwardSent m => some m
            | _ => none)
        = ([⟨"tick", 1⟩, ⟨"tock", 2⟩] : List JsEvent).map
            (fun ev => (⟨3, ev.eventType, ev.detail⟩ : EventMessage))) :=
  C6_event_forwarding (fun _ => true) 3 false false ⟨"tick", 1⟩ [⟨"tick", 1⟩, ⟨"tock", 2⟩]

/-! ## Renderer-process proxy manager (`src/renderer/proxy-manager.ts`)

A proxy stub is embedded by the data the manager stores about it —
`objectId`, `isEventTarget` — plus an allocation `token` standing for JS
object identity (each `new Proxy(...)` is a fresh heap object; the
manager's `nextToken` plays the role of the allocator). A `WeakRef` is
embedded as its referent plus an `alive` flag: `deref()` answers the stub
while `alive`, `none` after the referent has been collected. -/

/-- A consumer-side proxy object, with its identity token. -/
structure ProxyStub where
  objectId : Nat
  isEventTarget : Bool
  token : Nat
deriving DecidableEq

/-- A `WeakRef` cell of the renderer's `objectMap`. -/
structure WeakRefEntry where
  alive : Bool
  stub : ProxyStub
deriving DecidableEq

/-- `weakRef.deref()`: the referent while it is still reachable. -/
def WeakRefEntry.deref (w : WeakRefEntry) : Option ProxyStub :=
  if w.alive then some w.stub else none

/-- The proxy manager's module-level state: the WeakRef table `objectMap`,
the strong `singletonProxyMap`, and the allocator for stub identities. -/
structure RendererState where
  objectMap : List (Nat × WeakRefEntry)
  singletonProxyMap : List (String × ProxyStub)
  nextToken : Nat
deriving DecidableEq

/-- Requests the proxy manager emits over the preload API (`api.invoke`,
`api.sendSync`, `api.send`). -/
inductive RendRequest
  | getSingletonReq (className : String) (args : List Nat)
  | getSingletonSyncReq (className : String) (args : List Nat)
  | releaseReq (objectIds : List Nat)
deriving DecidableEq

/-- `createProxyFromResponse(objectId, isEventTarget)`: builds a fresh
proxy and registers it in `objectMap` under a live `WeakRef`. -/
def createProxyFromResponse (objectId : Nat) (isEventTarget : Bool)
    (s : RendererState) : RendererState × ProxyStub :=
  let proxy : ProxyStub := ⟨objectId, isEventTarget, s.nextToken⟩
  ({ s with
      objectMap := insertA objectId ⟨true, proxy⟩ s.objectMap
      nextToken := s.nextToken + 1 },
    proxy)

/-- Renderer `getSingleton(className, init?)`: answer the strongly cached
stub with no round trip, or issue one `getSingleton` request (with
`init ?? []`), build the stub from the `response`, and register it in both
tables. The reply the main process would produce is a parameter. -/
def getSingleton (className : String) (init : Option (List Nat))
    (response : CreateResponse) (s : RendererState) :
    RendererState × ProxyStub × List RendRequest :=
  match lookupA s.singletonProxyMap className with
  | some proxy => (s, proxy, [])
  | none =>
    let created := createProxyFromResponse response.objectId response.isEventTarget s
    ({ created.1 with
        singletonProxyMap := insertA className created.2 created.1.singletonProxyMap },
      created.2, [.getSingletonReq className (init.getD [])])

/-- Renderer `getSingletonSync(className, init?)`: same shape as
`getSingleton`, over the blocking `api.sendSync` round trip. -/
def getSingletonSync (className : String) (init : Option (List Nat))
    (response : CreateResponse) (s : RendererState) :
    RendererState × ProxyStub × List RendRequest :=
  match lookupA s.singletonProxyMap className with
  | some proxy => (s, proxy, [])
  | none =>
    let created := createProxyFromResponse response.objectId response.isEventTarget s
    ({ created.1 with
        singletonProxyMap := insertA className created.2 created.1.singletonProxyMap },
      created.2, [.getSingletonSyncReq className (init.getD [])])

/-- `releaseObjects(objectIds)`: early-return on an empty list; otherwise
delete each id from `objectMap` and send one batched `release` message. -/
def releaseObjects (objectIds : List Nat) (s : RendererState) :
    RendererState × List RendRequest :=
  if objectIds.isEmpty then (s, [])
  else
    ({ s with
        objectMap := objectIds.foldl (fun m objectId => eraseA objectId m) s.objectMap },
      [.releaseReq objectIds])

/-- `cleanupObjects()`: one periodic sweep — collect every id whose
`WeakRef` no longer dereferences, and hand the collected ids to
`releaseObjects` only when there are any. -/
def cleanupObjects (s : RendererState) : RendererState × List RendRequest :=
  let releasedObjectIds :=
    (s.objectMap.filter (fun p => p.2.deref.isNone)).map Prod.fst
  if releasedObjectIds.isEmpty then (s, [])
  else releaseObjects releasedObjectIds s

/-- A successful lookup exhibits a member of the association list. -/
theorem mem_of_lookupA {κ α : Type} [DecidableEq κ] {l : List (κ × α)} {k : κ} {v : α}
    (h : lookupA l k = some v) : (k, v) ∈ l := by
  induction l with
  | nil => cases h
  | cons p l ih =>
    cases p with
    | mk a b =>
      by_cases hak : a = k
      · subst hak
        simp [lookupA] at h
        subst h
        exact List.mem_cons_self _ _
      · simp only [lookupA, if_neg hak] at h
        exact List.mem_cons_of_mem _ (ih h)

/-- A key present among an association list's first components has a
successful lookup. -/
theorem lookupA_isSome_of_key_mem {κ α : Type} [DecidableEq κ] {l : List (κ × α)} {k : κ}
    (h : k ∈ l.map Prod.fst) : (lookupA l k).isSome := by
  rcases List.mem_map.mp h with ⟨p, hp, hk⟩
  rw [← hk]
  exact lookupA_isSome_of_mem hp

/-! ## Claim C8: consumer-side singleton caching -/

/-- C8: when the strong singleton table already holds a stub for the class
name, both `getSingleton` and `getSingletonSync` answer exactly that stub
with no request and no state change; on a miss each issues exactly one
request, registers the fresh stub under its id in the weak table and
under the class name in the strong table, and returns it — the
asynchronous flavour over one `getSingleton` request, the synchronous
flavour over one `getSingletonSync` request — so an immediately
following call of either flavour (whatever arguments and whatever reply
the transport would give it) returns the identical stub with no further
request. -/
theorem C8_renderer_singleton_cache
    (className : String) (init init2 : Option (List Nat))
    (response response2 : CreateResponse) (s : RendererState) :
    (∀ proxy, lookupA s.singletonProxyMap className = some proxy →
      getSingleton className init response s = (s, proxy, []) ∧
      getSingletonSync className init response s = (s, proxy, [])) ∧
    (lookupA s.singletonProxyMap className = none →
      ∃ s' proxy,
        getSingleton className init response s
          = (s', proxy, [.getSingletonReq className (init.getD [])]) ∧
        getSingletonSync className init response s
          = (s', proxy, [.getSingletonSyncReq className (init.getD [])]) ∧
        proxy.objectId = response.objectId ∧
        proxy.isEventTarget = response.isEventTarget ∧
        lookupA s'.objectMap response.objectId = some ⟨true, proxy⟩ ∧
        lookupA s'.singletonProxyMap className = some proxy ∧
        getSingleton className init2 response2 s' = (s', proxy, []) ∧
        getSingletonSync className init2 response2 s' = (s', proxy, [])) := by
  constructor
  · intro proxy hhit
    constructor
    · simp [getSingleton, hhit]
    · simp [getSingletonSync, hhit]
  · intro hmiss
    refine ⟨{ objectMap := insertA response.objectId
                ⟨true, ⟨response.objectId, response.isEventTarget, s.nextToken⟩⟩ s.objectMap
              singletonProxyMap := insertA className
                ⟨response.objectId, response.isEventTarget, s.nextToken⟩ s.singletonProxyMap
              nextToken := s.nextToken + 1 },
      ⟨response.objectId, response.isEventTarget, s.nextToken⟩,
      ?_, ?_, rfl, rfl, ?_, ?_, ?_, ?_⟩
    · simp [getSingleton, hmiss, createProxyFromResponse]
    · simp [getSingletonSync, hmiss, createProxyFromResponse]
    · exact lookupA_insertA_self ..
    · exact lookupA_insertA_self ..
    · simp [getSingleton, lookupA_insertA_self]
    · simp [getSingletonSync, lookupA_insertA_self]

/-- Witness for C8: a cache miss for `"Logger"` on the fresh renderer
state, followed by a hit. -/
theorem C8_witness :
    (∀ proxy,
      lookupA (RendererState.mk [] [] 0).singletonProxyMap "Logger" = some proxy →
      getSingleton "Logger" (some [1]) ⟨4, true⟩ ⟨[], [], 0⟩ = (⟨[], [], 0⟩, proxy, []) ∧
      getSingletonSync "Logger" (some [1]) ⟨4, true⟩ ⟨[], [], 0⟩ = (⟨[], [], 0⟩, proxy, [])) ∧
    (lookupA (RendererState.mk [] [] 0).singletonProxyMap "Logger" = none →
      ∃ s' proxy,
        getSingleton "Logger" (some [1]) ⟨4, true⟩ ⟨[], [], 0⟩
          = (s', proxy, [.getSingletonReq "Logger" ((some [1]).getD [])]) ∧
        getSingletonSync "Logger" (some [1]) ⟨4, true⟩ ⟨[], [], 0⟩
          = (s', proxy, [.getSingletonSyncReq "Logger" ((some [1]).getD [])]) ∧
        proxy.objectId = (4 : Nat) ∧
        proxy.isEventTarget = true ∧
        lookupA s'.objectMap 4 = some ⟨true, proxy⟩ ∧
        lookupA s'.singletonProxyMap "Logger" = some proxy ∧
        getSingleton "Logger" (some [2]) ⟨9, false⟩ s' = (s', proxy, []) ∧
        getSingletonSync "Logger" (some [2]) ⟨9, false⟩ s' = (s', proxy, [])) :=
  C8_renderer_singleton_cache "Logger" (some [1]) (some [2]) ⟨4, true⟩ ⟨9, false⟩ ⟨[], [], 0⟩

/-! ## Claim C7: each reclaimed id is batched exactly once -/

/-- Every id a sweep batches for release is a key of the table it swept. -/
theorem cleanupObjects_ids_are_keys (s : RendererState) (objectIds : List Nat)
    (h : RendRequest.releaseReq objectIds ∈ (cleanupObjects s).2) :
    ∀ objectId ∈ objectIds, objectId ∈ s.objectMap.map Prod.fst := by
  intro objectId hid
  by_cases hemp : ((s.objectMap.filter (fun p => p.2.deref.isNone)).map Prod.fst).isEmpty
  · have : (cleanupObjects s).2 = [] := by
      simp only [cleanupObjects]
      rw [if_pos hemp]
    rw [this] at h
    cases h
  · have : (cleanupObjects s).2
        = [.releaseReq ((s.objectMap.filter (fun p => p.2.deref.isNone)).map Prod.fst)] := by
      simp only [cleanupObjects, releaseObjects]
      rw [if_neg hemp, if_neg hemp]
    rw [this] at h
    have heq := List.mem_singleton.mp h
    rw [RendRequest.releaseReq.injEq] at heq
    subst heq
    rcases List.mem_map.mp hid with ⟨p, hp, hk⟩
    exact hk ▸ List.mem_map_of_mem Prod.fst (List.mem_of_mem_filter hp)

/-- After a sweeping cleanup, the table is the old one restricted to the
keys that were not collected. -/
theorem cleanupObjects_objectMap_of_ne (s : RendererState)
    (hne : ((s.objectMap.filter (fun p => p.2.deref.isNone)).map Prod.fst).isEmpty = false) :
    (cleanupObjects s).1.objectMap
      = s.objectMap.filter (fun p =>
          decide (p.1 ∉ (s.objectMap.filter (fun p => p.2.deref.isNone)).map Prod.fst)) := by
  simp only [cleanupObjects, releaseObjects]
  rw [if_neg (by simp [hne]), if_neg (by simp [hne])]
  exact release_foldl_eq_filter _ _

/-- A sweeping cleanup sends exactly one batched release request, naming
the collected ids. -/
theorem cleanupObjects_snd_of_ne (s : RendererState)
    (hne : ((s.objectMap.filter (fun p => p.2.deref.isNone)).map Prod.fst).isEmpty = false) :
    (cleanupObjects s).2
      = [.releaseReq ((s.objectMap.filter (fun p => p.2.deref.isNone)).map Prod.fst)] := by
  simp only [cleanupObjects, releaseObjects]
  rw [if_neg (by simp [hne]), if_neg (by simp [hne])]

/-- C7: an id whose weak reference has been cleared is collected by the
next sweep: the sweep emits exactly one batched release request, the id
is in its batch, and the id's weak-table entry is removed — so no later
sweep's batch can name it again (sweeps only batch current keys). A sweep
of a table whose references are all still live emits nothing. -/
theorem C7_reclaimed_id_batched_once
    (s : RendererState) (objectId : Nat) (w : WeakRefEntry)
    (hw : lookupA s.objectMap objectId = some w)
    (hdead : w.alive = false) :
    (∃ objectIds,
      (cleanupObjects s).2 = [.releaseReq objectIds] ∧
      objectId ∈ objectIds ∧
      lookupA (cleanupObjects s).1.objectMap objectId = none ∧
      ∀ objectIds2, RendRequest.releaseReq objectIds2
          ∈ (cleanupObjects (cleanupObjects s).1).2 →
        objectId ∉ objectIds2) ∧
    (∀ t : RendererState, (∀ p ∈ t.objectMap, p.2.alive = true) →
      cleanupObjects t = (t, [])) := by
  have hmemTbl : (objectId, w) ∈ s.objectMap := mem_of_lookupA hw
  have hpred : w.deref.isNone := by simp [WeakRefEntry.deref, hdead]
  have hcoll : objectId ∈ (s.objectMap.filter (fun p => p.2.deref.isNone)).map Prod.fst :=
    List.mem_map_of_mem Prod.fst (List.mem_filter_of_mem hmemTbl (by simpa using hpred))
  have hne : ((s.objectMap.filter (fun p => p.2.deref.isNone)).map Prod.fst).isEmpty = false := by
    cases hh : (s.objectMap.filter (fun p => p.2.deref.isNone)).map Prod.fst with
    | nil => rw [hh] at hcoll; cases hcoll
    | cons a l => rfl
  have hnone : lookupA (cleanupObjects s).1.objectMap objectId = none := by
    rw [cleanupObjects_objectMap_of_ne s hne]
    exact lookupA_filter_key_none s.objectMap
      (fun k => decide (k ∉ (s.objectMap.filter (fun p => p.2.deref.isNone)).map Prod.fst))
      objectId (by simp [hcoll])
  constructor
  · refine ⟨(s.objectMap.filter (fun p => p.2.deref.isNone)).map Prod.fst,
      cleanupObjects_snd_of_ne s hne, hcoll, hnone, ?_⟩
    intro objectIds2 hreq hmem2
    have hkey := cleanupObjects_ids_are_keys (cleanupObjects s).1 objectIds2 hreq
      objectId hmem2
    have hsome := lookupA_isSome_of_key_mem hkey
    rw [hnone] at hsome
    cases hsome
  · intro t hall
    have hfilt : t.objectMap.filter (fun p => p.2.deref.isNone) = [] := by
      rw [List.filter_eq_nil_iff]
      intro p hp
      simp [WeakRefEntry.deref, hall p hp]
    simp only [cleanupObjects]
    rw [hfilt]
    rfl

/-- Witness for C7: a table holding a collected entry for id 2 and a live
one for id 3; the sweep batches 2 once and removes it. -/
theorem C7_witness :
    let s : RendererState :=
      ⟨[(2, ⟨false, ⟨2, false, 0⟩⟩), (3, ⟨true, ⟨3, false, 1⟩⟩)], [], 2⟩
    (∃ objectIds,
      (cleanupObjects s).2 = [.releaseReq objectIds] ∧
      2 ∈ objectIds ∧
      lookupA (cleanupObjects s).1.objectMap 2 = none ∧
      ∀ objectIds2, RendRequest.releaseReq objectIds2
          ∈ (cleanupObjects (cleanupObjects s).1).2 →
        2 ∉ objectIds2) ∧
    (∀ t : RendererState, (∀ p ∈ t.objectMap, p.2.alive = true) →
      cleanupObjects t = (t, [])) :=
  C7_reclaimed_id_batched_once
    ⟨[(2, ⟨false, ⟨2, false, 0⟩⟩), (3, ⟨true, ⟨3, false, 1⟩⟩)], [], 2⟩ 2 ⟨false, ⟨2, false, 0⟩⟩
    rfl rfl

/-! ## Claim C10: the `then` property of a stub is always `undefined`

The `get` trap of `createProxyFromResponse` receives a property key — a
string or a symbol — and consults/extends the per-stub `methodCache`. Its
guards run in source order: the `then` guard first, the `OBJECT_METADATA`
symbol next, the string path through the cache after, `Reflect.get` for
remaining symbols. A string key is never a symbol and vice versa, so this
guard sequence is exactly a dispatch on the key's kind with the `then`
test first inside the string branch. `targetFns` names the
function-valued members of the underlying target object
(`addEventListener` / `removeEventListener` / `dispatchEvent` when the
stub was built over an `EventTarget`; none over `{}` — the embedding
quantifies over this list, covering both kinds of stub). -/

/-- A property key handed to the trap: a string, the `OBJECT_METADATA`
symbol, or any other symbol. -/
inductive PropKey
  | stringProp (name : String)
  | metadataSymbol
  | otherSymbol (n : Nat)
deriving DecidableEq

/-- What a property access on a stub can surface. -/
inductive PropValue
  | undefinedValue
  | metadataValue (objectId : Nat)
  | targetFunction (name : String)
  | remoteCallFunction (objectId : Nat) (method : String)
  | reflectValue
deriving DecidableEq

/-- The `get` trap: the `then` guard, the metadata symbol, then the
string-property path through the `methodCache` (target functions are
bound and cached, everything else becomes a cached async remote-call
function), and `Reflect.get` for remaining symbols. Returns the surfaced
value and the updated cache. -/
def proxyGet (objectId : Nat) (targetFns : List String)
    (methodCache : List (String × PropValue)) (prop : PropKey) :
    PropValue × List (String × PropValue) :=
  match prop with
  | .stringProp name =>
    if name = "then" then (.undefinedValue, methodCache)
    else
      match lookupA methodCache name with
      | some f => (f, methodCache)
      | none =>
        let f := if name ∈ targetFns then PropValue.targetFunction name
                 else PropValue.remoteCallFunction objectId name
        (f, insertA name f methodCache)
  | .metadataSymbol => (.metadataValue objectId, methodCache)
  | .otherSymbol _ => (.reflectValue, methodCache)

/-- A cache is well-formed when it only holds what the trap itself ever
stores: under each name, that name's bound target function or that name's
remote-call function. Fresh stubs start with the empty cache, which is
well-formed, and the trap preserves well-formedness, so this is an
invariant of every reachable cache. -/
def CacheWF (objectId : Nat) (methodCache : List (String × PropValue)) : Prop :=
  ∀ name f, lookupA methodCache name = some f →
    f = .targetFunction name ∨ f = .remoteCallFunction objectId name

/-- C10: on every stub — event-capable (`targetFns` of an `EventTarget`)
or not (`targetFns = []`) — and any reachable cache state, reading the
property named `then` surfaces `undefined` and leaves the cache alone, no
property access whatsoever surfaces a remote-call function for the method
name `then`, and the trap preserves cache well-formedness. -/
theorem C10_then_property_undefined
    (objectId : Nat) (targetFns : List String)
    (methodCache : List (String × PropValue))
    (hwf : CacheWF objectId methodCache) :
    proxyGet objectId targetFns methodCache (.stringProp "then")
        = (.undefinedValue, methodCache) ∧
    (∀ prop, (proxyGet objectId targetFns methodCache prop).1
        ≠ .remoteCallFunction objectId "then") ∧
    (∀ prop, CacheWF objectId (proxyGet objectId targetFns methodCache prop).2) := by
  refine ⟨by simp [proxyGet], ?_, ?_⟩
  · intro prop
    cases prop with
    | stringProp name =>
      by_cases hthen : name = "then"
      · subst hthen
        simp [proxyGet]
      · cases hl : lookupA methodCache name with
        | some f =>
          simp only [proxyGet, if_neg hthen, hl]
          rcases hwf name f hl with hf | hf <;> simp [hf, hthen]
        | none =>
          simp only [proxyGet, if_neg hthen, hl]
          by_cases htf : name ∈ targetFns <;> simp [htf, hthen]
    | metadataSymbol => simp [proxyGet]
    | otherSymbol n => simp [proxyGet]
  · intro prop
    cases prop with
    | stringProp name =>
      by_cases hthen : name = "then"
      · subst hthen
        simpa [proxyGet] using hwf
      · cases hl : lookupA methodCache name with
        | some f =>
          simp only [proxyGet, if_neg hthen, hl]
          exact hwf
        | none =>
          simp only [proxyGet, if_neg hthen, hl]
          by_cases htf : name ∈ targetFns
          · simp only [htf, if_true]
            intro name2 f2 h2
            by_cases hn : name = name2
            · subst hn
              rw [lookupA_insertA_self] at h2
              left
              exact (Option.some.injEq .. ▸ h2).symm
            · rw [lookupA_insertA_ne name name2 _ _ hn] at h2
              exact hwf name2 f2 h2
          · simp only [htf, if_false]
            intro name2 f2 h2
            by_cases hn : name = name2
            · subst hn
              rw [lookupA_insertA_self] at h2
              right
              exact (Option.some.injEq .. ▸ h2).symm
            · rw [lookupA_insertA_ne name name2 _ _ hn] at h2
              exact hwf name2 f2 h2
    | metadataSymbol => simpa [proxyGet] using hwf
    | otherSymbol n => simpa [proxyGet] using hwf

/-- Witness for C10: an event-capable stub's fresh (empty, well-formed)
cache. -/
theorem C10_witness :
    proxyGet 4 ["addEventListener", "removeEventListener", "dispatchEvent"] []
        (.stringProp "then")
        = (.undefinedValue, []) ∧
    (∀ prop, (proxyGet 4 ["addEventListener", "removeEventListener", "dispatchEvent"] []
        prop).1 ≠ .remoteCallFunction 4 "then") ∧
    (∀ prop, CacheWF 4 (proxyGet 4
        ["addEventListener", "removeEventListener", "dispatchEvent"] [] prop).2) :=
  C10_then_property_undefined 4 ["addEventListener", "removeEventListener", "dispatchEvent"]
    [] (fun name f h => by cases h)
